import Mathlib

/-!
Verification of the group-membership logic of `app.py` (`create_group`,
`join_group` and their Firestore transactions `transaction_create`,
`transaction_join`).  The Firestore state is embedded as association lists:
the `groups` collection keyed by the normalized group name, the `members`
subcollections keyed by (group name, uid), the per-user `user/{uid}/groups`
index keyed by (uid, group name), and the external `user` collection keyed
by uid.  bcrypt is embedded symbolically: a hash is a constructor packaging
the password and the salt, so hash values form a type disjoint from plain
strings and `checkpw` succeeds exactly on the original password.
-/

namespace GroupApp

/-- Association-list lookup, mirroring a Firestore document `get` by key. -/
def alookup {α β : Type} [DecidableEq α] : List (α × β) → α → Option β
  | [], _ => none
  | (k, v) :: rest, a => if k = a then some v else alookup rest a

/-- Association-list write, mirroring Firestore `tx.set` (overwrite-or-insert). -/
def aset {α β : Type} [DecidableEq α] : List (α × β) → α → β → List (α × β)
  | [], k, v => [(k, v)]
  | (k', v') :: rest, k, v =>
      if k' = k then (k, v) :: rest else (k', v') :: aset rest k v

/-- Modelled from the spec: bcrypt's salted one-way hash (the bcrypt library is
not part of this repository).  A hash symbolically packages the hashed password
and the salt; it is a type distinct from plain strings, reflecting one-wayness. -/
inductive BcryptHash
  | hashed (password : String) (salt : String)
  deriving DecidableEq

/-- Modelled from the spec: `bcrypt.hashpw(password, gensalt())`. -/
def hashpw (password salt : String) : BcryptHash := .hashed password salt

/-- Modelled from the spec: `bcrypt.checkpw` — verification succeeds exactly
when the supplied password is the one that was hashed. -/
def checkpw (password : String) (h : BcryptHash) : Bool :=
  match h with
  | .hashed p _ => password == p

/-- A JSON field value as it can occur in stored documents or responses:
either a plain string or a bcrypt hash. -/
inductive Val
  | s (x : String)
  | h (x : BcryptHash)
  deriving DecidableEq

/-- The `createdBy` map stored in a group document (app.py lines 446-450). -/
structure CreatedBy where
  uid : String
  username : String
  photoUrl : String
  deriving DecidableEq

/-- A document of the `groups` collection (app.py lines 442-451).  The
`passwordHash` field is optional because `join_group` guards against stored
records missing it (line 516). -/
structure GroupDoc where
  name : String
  passwordHash : Option BcryptHash
  createdAt : Nat
  createdBy : CreatedBy
  deriving DecidableEq

/-- A document of a group's `members` subcollection (app.py lines 453-461). -/
structure MemberDoc where
  role : String
  username : String
  photoUrl : String
  joinedAt : Nat
  deriving DecidableEq

/-- A document of the per-user `groups` index subcollection
(app.py lines 463-475). -/
structure UserGroupDoc where
  name : String
  username : String
  photoUrl : String
  role : String
  joinedAt : Nat
  deriving DecidableEq

/-- A document of the external `user` collection; `create_group` and
`join_group` read `username` and `photoUrl` with default `""`
(app.py lines 426-428, 526-528), so the fields are optional. -/
structure UserDoc where
  username : Option String
  photoUrl : Option String
  deriving DecidableEq

/-- The Firestore state visible to the group endpoints. -/
structure Store where
  groups : List (String × GroupDoc)
  members : List ((String × String) × MemberDoc)
  userGroups : List ((String × String) × UserGroupDoc)
  users : List (String × UserDoc)
  deriving DecidableEq

/-- Python's `data.get("name", "").strip().lower()` (app.py lines 411, 501):
trim surrounding whitespace, then lowercase. -/
def normalize (s : String) : String :=
  ⟨(((s.data.dropWhile Char.isWhitespace).reverse.dropWhile
      Char.isWhitespace).reverse).map Char.toLower⟩

/-- Whether `p` starts `l` (Python's `l.startswith(p)`) on char lists. -/
def hasPrefixChars : List Char → List Char → Bool
  | [], _ => true
  | _ :: _, [] => false
  | a :: as, b :: bs => a == b && hasPrefixChars as bs

/-- Whether `needle` occurs inside a char list (Python's `in` on strings). -/
def hasInfixChars (needle : List Char) : List Char → Bool
  | [] => hasPrefixChars needle []
  | b :: bs => hasPrefixChars needle (b :: bs) || hasInfixChars needle bs

/-- Python's `"taken" in str(e)` (app.py line 481). -/
def containsTaken (msg : String) : Bool :=
  hasInfixChars "taken".data msg.data

/-- Result of the `/create-group` endpoint past the auth layer
(app.py lines 410-484). -/
inductive CreateRes
  | missingFields
  | passwordTooShort
  | userNotFound
  | groupTaken
  | serverError
  | success (groupId : String)
  deriving DecidableEq

/-- HTTP status paired with each `create_group` outcome (app.py lines
415, 418, 424, 479, 482, 484). -/
def createStatus : CreateRes → Nat
  | .missingFields => 400
  | .passwordTooShort => 400
  | .userNotFound => 404
  | .groupTaken => 400
  | .serverError => 500
  | .success _ => 200

/-- The data-bearing field values of each `create_group` JSON response. -/
def createResVals : CreateRes → List Val
  | .missingFields => [.s "Missing fields"]
  | .passwordTooShort => [.s "Password too short"]
  | .userNotFound => [.s "User not found"]
  | .groupTaken => [.s "Group name already taken"]
  | .serverError => [.s "Server error"]
  | .success g => [.s g]

/-- The except-clause of `create_group` (app.py lines 480-484): an exception
whose text contains `"taken"` becomes the 400 "Group name already taken"
response, anything else the generic 500 response. -/
def createClassifyError (msg : String) : CreateRes :=
  if containsTaken msg then .groupTaken else .serverError

/-- `transaction_create` (app.py lines 434-475): inside one Firestore
transaction, read the group document; if it exists raise
"Group name already taken", otherwise write the group document, the creator's
member document and the creator's user-group index entry.  `storeFault`
injects a store-layer exception at commit time (the spec's
`TransientStoreError`); a faulted transaction commits nothing. -/
def transaction_create (name : String) (hashed : BcryptHash)
    (uid username photoUrl : String) (now : Nat) (storeFault : Option String)
    (st : Store) : Except String Store :=
  match alookup st.groups name with
  | some _ => .error "Group name already taken"
  | none =>
      let groupDoc : GroupDoc :=
        { name := name
          passwordHash := some hashed
          createdAt := now
          createdBy := { uid := uid, username := username, photoUrl := photoUrl } }
      let memberDoc : MemberDoc :=
        { role := "member", username := username, photoUrl := photoUrl, joinedAt := now }
      let userGroupDoc : UserGroupDoc :=
        { name := name, username := username, photoUrl := photoUrl
          role := "member", joinedAt := now }
      let st1 : Store := { st with groups := aset st.groups name groupDoc }
      let st2 : Store := { st1 with members := aset st1.members (name, uid) memberDoc }
      let st3 : Store := { st2 with userGroups := aset st2.userGroups (uid, name) userGroupDoc }
      match storeFault with
      | some m => .error m
      | none => .ok st3

/-- `create_group` (app.py lines 400-484) past the API-key and token checks:
normalize the name, validate fields and password length, hash the password,
require the user document, then run `transaction_create` and map its outcome
to a response. -/
def create_group (uid rawName password salt : String) (now : Nat)
    (storeFault : Option String) (st : Store) : CreateRes × Store :=
  let name := normalize rawName
  if name = "" ∨ password = "" then (.missingFields, st)
  else if password.length < 8 then (.passwordTooShort, st)
  else
    let hashed := hashpw password salt
    match alookup st.users uid with
    | none => (.userNotFound, st)
    | some userData =>
        let username := userData.username.getD ""
        let photoUrl := userData.photoUrl.getD ""
        match transaction_create name hashed uid username photoUrl now storeFault st with
        | .ok st' => (.success name, st')
        | .error e => (createClassifyError e, st)

/-- Result of the `/join-group` endpoint past the auth layer
(app.py lines 500-568). -/
inductive JoinRes
  | missingFields
  | groupNotFound
  | corruptedGroup
  | incorrectPassword
  | userNotFound
  | serverError
  | success (groupId : String)
  deriving DecidableEq

/-- HTTP status paired with each `join_group` outcome (app.py lines
505, 511, 517, 520, 524, 565, 568). -/
def joinStatus : JoinRes → Nat
  | .missingFields => 400
  | .groupNotFound => 404
  | .corruptedGroup => 500
  | .incorrectPassword => 403
  | .userNotFound => 404
  | .serverError => 500
  | .success _ => 200

/-- The data-bearing field values of each `join_group` JSON response. -/
def joinResVals : JoinRes → List Val
  | .missingFields => [.s "Missing fields"]
  | .groupNotFound => [.s "Group not found"]
  | .corruptedGroup => [.s "Corrupted group"]
  | .incorrectPassword => [.s "Incorrect password"]
  | .userNotFound => [.s "User not found"]
  | .serverError => [.s "Server error"]
  | .success g => [.s g]

/-- `transaction_join` (app.py lines 532-561): inside one Firestore
transaction, read both the member document and the user-group index entry
(all reads first), then write whichever of the two is absent.  `storeFault`
injects a store-layer exception at commit time; a faulted transaction
commits nothing. -/
def transaction_join (name uid username photoUrl : String) (now : Nat)
    (storeFault : Option String) (st : Store) : Except String Store :=
  let memberSnapshot := alookup st.members (name, uid)
  let userGroupSnapshot := alookup st.userGroups (uid, name)
  let memberDoc : MemberDoc :=
    { role := "member", username := username, photoUrl := photoUrl, joinedAt := now }
  let userGroupDoc : UserGroupDoc :=
    { name := name, username := username, photoUrl := photoUrl
      role := "member", joinedAt := now }
  let st1 : Store :=
    match memberSnapshot with
    | some _ => st
    | none => { st with members := aset st.members (name, uid) memberDoc }
  let st2 : Store :=
    match userGroupSnapshot with
    | some _ => st1
    | none => { st1 with userGroups := aset st1.userGroups (uid, name) userGroupDoc }
  match storeFault with
  | some m => .error m
  | none => .ok st2

/-- `join_group` (app.py lines 490-568) past the API-key and token checks:
normalize the name, validate fields, require the group, guard against a
stored record with no password hash, verify the password, require the user
document, then run `transaction_join`; any transaction exception becomes the
generic 500 response. -/
def join_group (uid rawName password : String) (now : Nat)
    (storeFault : Option String) (st : Store) : JoinRes × Store :=
  let name := normalize rawName
  if name = "" ∨ password = "" then (.missingFields, st)
  else
    match alookup st.groups name with
    | none => (.groupNotFound, st)
    | some groupData =>
        match groupData.passwordHash with
        | none => (.corruptedGroup, st)
        | some storedHash =>
            if !checkpw password storedHash then (.incorrectPassword, st)
            else
              match alookup st.users uid with
              | none => (.userNotFound, st)
              | some userData =>
                  let username := userData.username.getD ""
                  let photoUrl := userData.photoUrl.getD ""
                  match transaction_join name uid username photoUrl now storeFault st with
                  | .ok st' => (.success name, st')
                  | .error _ => (.serverError, st)

/-! ### Helper lemmas about the store primitives -/

theorem alookup_aset_self {α β : Type} [DecidableEq α] (l : List (α × β)) (k : α) (v : β) :
    alookup (aset l k v) k = some v := by
  induction l with
  | nil => simp [aset, alookup]
  | cons p rest ih =>
      obtain ⟨k', v'⟩ := p
      by_cases hk : k' = k <;> simp [aset, alookup, hk, ih]

theorem checkpw_hashpw (p s : String) : checkpw p (hashpw p s) = true := by
  simp [checkpw, hashpw]

/-- With the group present, the create transaction aborts with the
"Group name already taken" exception whatever else happens. -/
theorem transaction_create_exists {name : String} {st : Store} {gd : GroupDoc}
    (hashed : BcryptHash) (uid username photoUrl : String) (now : Nat)
    (sf : Option String) (hg : alookup st.groups name = some gd) :
    transaction_create name hashed uid username photoUrl now sf st =
      .error "Group name already taken" := by
  simp [transaction_create, hg]

/-- With the group absent and no store fault, the create transaction commits
all three writes together. -/
theorem transaction_create_absent {name : String} {st : Store}
    (hashed : BcryptHash) (uid username photoUrl : String) (now : Nat)
    (hg : alookup st.groups name = none) :
    transaction_create name hashed uid username photoUrl now none st =
      .ok ⟨aset st.groups name ⟨name, some hashed, now, ⟨uid, username, photoUrl⟩⟩,
           aset st.members (name, uid) ⟨"member", username, photoUrl, now⟩,
           aset st.userGroups (uid, name) ⟨name, username, photoUrl, "member", now⟩,
           st.users⟩ := by
  simp [transaction_create, hg]

/-- With both the member document and the index entry present, the join
transaction commits with no writes at all. -/
theorem transaction_join_both {name uid : String} {st : Store} {m : MemberDoc}
    {ug : UserGroupDoc} (username photoUrl : String) (now : Nat)
    (hm : alookup st.members (name, uid) = some m)
    (hug : alookup st.userGroups (uid, name) = some ug) :
    transaction_join name uid username photoUrl now none st = .ok st := by
  simp [transaction_join, hm, hug]

/-- Whenever the join transaction commits, the groups and users collections
are untouched and both the member document and the index entry are present
afterwards. -/
theorem transaction_join_ok_fields {name uid username photoUrl : String}
    {now : Nat} {sf : Option String} {st st' : Store}
    (h : transaction_join name uid username photoUrl now sf st = .ok st') :
    st'.groups = st.groups ∧ st'.users = st.users ∧
      (alookup st'.members (name, uid)).isSome = true ∧
      (alookup st'.userGroups (uid, name)).isSome = true := by
  cases sf with
  | some m => simp [transaction_join] at h
  | none =>
      cases hm : alookup st.members (name, uid) <;>
        cases hug : alookup st.userGroups (uid, name) <;>
          simp [transaction_join, hm, hug] at h <;>
            subst h <;> simp [alookup_aset_self, hm, hug]

/-- Whenever the create transaction commits, the group was absent, no store
fault occurred, and all three documents are present afterwards. -/
theorem transaction_create_ok_fields {name : String} {hashed : BcryptHash}
    {uid username photoUrl : String} {now : Nat} {sf : Option String}
    {st st' : Store}
    (h : transaction_create name hashed uid username photoUrl now sf st = .ok st') :
    alookup st'.groups name = some ⟨name, some hashed, now, ⟨uid, username, photoUrl⟩⟩ ∧
      alookup st'.members (name, uid) = some ⟨"member", username, photoUrl, now⟩ ∧
      alookup st'.userGroups (uid, name) = some ⟨name, username, photoUrl, "member", now⟩ ∧
      st'.users = st.users ∧ alookup st.groups name = none ∧ sf = none := by
  cases hg : alookup st.groups name with
  | some gd => simp [transaction_create, hg] at h
  | none =>
      cases sf with
      | some m => simp [transaction_create, hg] at h
      | none =>
          simp only [transaction_create, hg] at h
          injection h with h
          subst h
          simp [alookup_aset_self]

/-! ### Sample stores used to instantiate the theorems -/

/-- One user `u1`, no groups. -/
def stUser : Store :=
  { groups := []
    members := []
    userGroups := []
    users := [("u1", ⟨some "alice", some "a.png"⟩)] }

/-- One group `g` created by `c` (password `password123`), plus users `u1`
and `c`; `u1` is not yet a member. -/
def stGroup : Store :=
  { groups := [("g", ⟨"g", some (hashpw "password123" "s1"), 0, ⟨"c", "carol", ""⟩⟩)]
    members := [(("g", "c"), ⟨"member", "carol", "", 0⟩)]
    userGroups := [(("c", "g"), ⟨"g", "carol", "", "member", 0⟩)]
    users := [("u1", ⟨some "alice", some "a.png"⟩), ("c", ⟨some "carol", none⟩)] }

/-! ### Claims -/

/-- C1.  Group-name uniqueness: when a group already exists under the
normalized name, `create_group` (past validation, with the requester's user
record present) answers "Group name already taken" and leaves the store
unchanged, and the uniqueness check itself happens inside the transaction:
`transaction_create` aborts with the "Group name already taken" exception —
before any write, whatever document values it would have written and even if
the store would have faulted at commit. -/
theorem C1_group_name_uniqueness (uid rawName password salt : String)
    (now : Nat) (sf : Option String) (st : Store) (gd : GroupDoc) (u : UserDoc)
    (hname : normalize rawName ≠ "") (hlen : 8 ≤ password.length)
    (hu : alookup st.users uid = some u)
    (hg : alookup st.groups (normalize rawName) = some gd) :
    create_group uid rawName password salt now sf st = (CreateRes.groupTaken, st) ∧
      ∀ (hashed : BcryptHash) (username photoUrl : String),
        transaction_create (normalize rawName) hashed uid username photoUrl now sf st =
          .error "Group name already taken" := by
  constructor
  · have hcond : ¬(normalize rawName = "" ∨ password = "") := by
      rintro (h | h)
      · exact hname h
      · subst h; simp [String.length] at hlen
    simp only [create_group]
    rw [if_neg hcond, if_neg (Nat.not_lt.mpr hlen)]
    simp only [hu]
    rw [transaction_create_exists (hashpw password salt) uid
      (u.username.getD "") (u.photoUrl.getD "") now sf hg]
    have hclass : createClassifyError "Group name already taken" = CreateRes.groupTaken := by
      decide
    simp [hclass]
  · intro hashed username photoUrl
    exact transaction_create_exists hashed uid username photoUrl now sf hg

/-- Witness for C1 on a concrete store that already has group `g`. -/
theorem C1_witness :
    create_group "u1" " G " "password123" "s2" 5 none stGroup =
      (CreateRes.groupTaken, stGroup) ∧
    transaction_create "g" (hashpw "password123" "s2") "u1" "alice" "a.png" 5 none stGroup =
      .error "Group name already taken" := by
  have h := C1_group_name_uniqueness "u1" " G " "password123" "s2" 5 none stGroup
    ⟨"g", some (hashpw "password123" "s1"), 0, ⟨"c", "carol", ""⟩⟩
    ⟨some "alice", some "a.png"⟩ (by decide) (by decide) (by decide) (by decide)
  exact ⟨h.1, h.2 (hashpw "password123" "s2") "alice" "a.png"⟩

/-- C2.  Dual-write consistency: every `create_group` call either succeeds
with the group document, the member document and the user-group index entry
all present in the resulting store, or leaves the store exactly unchanged;
every `join_group` call either succeeds with the member document and the index
entry both present, or leaves the store exactly unchanged.  No error path
(validation, missing user, duplicate group, store fault) leaves a partial
write. -/
theorem C2_dual_write_consistency (uid rawName password salt : String)
    (now : Nat) (sf : Option String) (st : Store) :
    (((create_group uid rawName password salt now sf st).1 =
        CreateRes.success (normalize rawName) ∧
      (alookup (create_group uid rawName password salt now sf st).2.groups
        (normalize rawName)).isSome = true ∧
      (alookup (create_group uid rawName password salt now sf st).2.members
        (normalize rawName, uid)).isSome = true ∧
      (alookup (create_group uid rawName password salt now sf st).2.userGroups
        (uid, normalize rawName)).isSome = true) ∨
      (create_group uid rawName password salt now sf st).2 = st) ∧
    (((join_group uid rawName password now sf st).1 =
        JoinRes.success (normalize rawName) ∧
      (alookup (join_group uid rawName password now sf st).2.members
        (normalize rawName, uid)).isSome = true ∧
      (alookup (join_group uid rawName password now sf st).2.userGroups
        (uid, normalize rawName)).isSome = true) ∨
      (join_group uid rawName password now sf st).2 = st) := by
  constructor
  · by_cases hc : normalize rawName = "" ∨ password = ""
    · right; simp [create_group, if_pos hc]
    · by_cases hlen : password.length < 8
      · right; simp [create_group, if_neg hc, if_pos hlen]
      · cases hu : alookup st.users uid with
        | none => right; simp [create_group, if_neg hc, if_neg hlen, hu]
        | some u =>
            cases htc : transaction_create (normalize rawName) (hashpw password salt)
                uid (u.username.getD "") (u.photoUrl.getD "") now sf st with
            | error e =>
                right; simp [create_group, if_neg hc, if_neg hlen, hu, htc]
            | ok st' =>
                left
                obtain ⟨h1, h2, h3, _⟩ := transaction_create_ok_fields htc
                simp [create_group, if_neg hc, if_neg hlen, hu, htc, h1, h2, h3]
  · by_cases hc : normalize rawName = "" ∨ password = ""
    · right; simp [join_group, if_pos hc]
    · cases hg : alookup st.groups (normalize rawName) with
      | none => right; simp [join_group, if_neg hc, hg]
      | some gd =>
          cases hh : gd.passwordHash with
          | none => right; simp [join_group, if_neg hc, hg, hh]
          | some hsh =>
              cases hcp : checkpw password hsh with
              | false => right; simp [join_group, if_neg hc, hg, hh, hcp]
              | true =>
                  cases hu : alookup st.users uid with
                  | none => right; simp [join_group, if_neg hc, hg, hh, hcp, hu]
                  | some u =>
                      cases htj : transaction_join (normalize rawName) uid
                          (u.username.getD "") (u.photoUrl.getD "") now sf st with
                      | error e =>
                          right; simp [join_group, if_neg hc, hg, hh, hcp, hu, htj]
                      | ok st' =>
                          left
                          obtain ⟨_, _, h3, h4⟩ := transaction_join_ok_fields htj
                          simp [join_group, if_neg hc, hg, hh, hcp, hu, htj, h3, h4]

/-- With no store fault the join transaction always commits. -/
theorem transaction_join_none_ok (name uid username photoUrl : String)
    (now : Nat) (st : Store) :
    ∃ st', transaction_join name uid username photoUrl now none st = .ok st' :=
  ⟨_, rfl⟩

/-- One group `g` with all members present for user `u1`. -/
def stMember : Store :=
  { groups := [("g", ⟨"g", some (hashpw "password123" "s1"), 0, ⟨"c", "carol", ""⟩⟩)]
    members := [(("g", "u1"), ⟨"member", "alice", "a.png", 0⟩)]
    userGroups := [(("u1", "g"), ⟨"g", "alice", "a.png", "member", 0⟩)]
    users := [("u1", ⟨some "alice", some "a.png"⟩)] }

/-- One group `g`, but no user record at all for the requester `u1`. -/
def stNoUser : Store :=
  { groups := [("g", ⟨"g", some (hashpw "password123" "s1"), 0, ⟨"c", "carol", ""⟩⟩)]
    members := []
    userGroups := []
    users := [] }

/-- C3.  Join idempotence: a user who already belongs to the group (member
document and index entry both present) can call `join_group` again with the
correct password; the call succeeds and returns the store exactly unchanged —
nothing is overwritten or duplicated.  Moreover a second `join_group` right
after a first successful one (even at a later timestamp) returns the same
success and leaves the stored records identical to the state after the first
call. -/
theorem C3_join_idempotent (uid rawName password : String) (now now2 : Nat)
    (st : Store) (gd : GroupDoc) (hsh : BcryptHash) (u : UserDoc)
    (hname : normalize rawName ≠ "") (hpw : password ≠ "")
    (hg : alookup st.groups (normalize rawName) = some gd)
    (hh : gd.passwordHash = some hsh)
    (hcheck : checkpw password hsh = true)
    (hu : alookup st.users uid = some u) :
    (∀ (m : MemberDoc) (ug : UserGroupDoc),
        alookup st.members (normalize rawName, uid) = some m →
        alookup st.userGroups (uid, normalize rawName) = some ug →
        join_group uid rawName password now none st =
          (JoinRes.success (normalize rawName), st)) ∧
    join_group uid rawName password now2 none
        (join_group uid rawName password now none st).2 =
      (JoinRes.success (normalize rawName),
        (join_group uid rawName password now none st).2) := by
  have hcond : ¬(normalize rawName = "" ∨ password = "") := by
    rintro (h | h)
    · exact hname h
    · exact hpw h
  constructor
  · intro m ug hm hug
    simp [join_group, if_neg hcond, hg, hh, hcheck, hu,
      transaction_join_both (u.username.getD "") (u.photoUrl.getD "") now hm hug]
  · obtain ⟨st2, htj⟩ := transaction_join_none_ok (normalize rawName) uid
      (u.username.getD "") (u.photoUrl.getD "") now st
    have heq1 : join_group uid rawName password now none st =
        (JoinRes.success (normalize rawName), st2) := by
      simp [join_group, if_neg hcond, hg, hh, hcheck, hu, htj]
    obtain ⟨hgroups, husers, hm2, hug2⟩ := transaction_join_ok_fields htj
    obtain ⟨m2, hm⟩ := Option.isSome_iff_exists.mp hm2
    obtain ⟨ug2, hug⟩ := Option.isSome_iff_exists.mp hug2
    rw [heq1]
    simp [join_group, if_neg hcond, hgroups, husers, hg, hh, hcheck, hu,
      transaction_join_both (u.username.getD "") (u.photoUrl.getD "") now2 hm hug]

/-- Witness for C3: joining `g` again while already a member changes
nothing. -/
theorem C3_witness :
    join_group "u1" "g" "password123" 7 none stMember =
      (JoinRes.success "g", stMember) :=
  (C3_join_idempotent "u1" "g" "password123" 7 8 stMember
      ⟨"g", some (hashpw "password123" "s1"), 0, ⟨"c", "carol", ""⟩⟩
      (hashpw "password123" "s1") ⟨some "alice", some "a.png"⟩
      (by decide) (by decide) (by decide) (by decide) (by decide) (by decide)).1
    ⟨"member", "alice", "a.png", 0⟩ ⟨"g", "alice", "a.png", "member", 0⟩
    (by decide) (by decide)

/-- C4 counterexample: group `g` exists, user `u1` has no user record, and the
supplied password is wrong; `join_group` answers `incorrectPassword`, not the
`userNotFound` the claim predicts — the password check runs first. -/
theorem C4_counterexample :
    (join_group "u1" "g" "wrongpass1" 0 none stNoUser).1 = JoinRes.incorrectPassword ∧
    (join_group "u1" "g" "wrongpass1" 0 none stNoUser).1 ≠ JoinRes.userNotFound ∧
    alookup stNoUser.users "u1" = none := by
  decide

/-- C4 (amended).  When the group exists (with a stored hash), the supplied
password matches that hash, and the requester's user record is absent,
`join_group` fails with `userNotFound` and writes nothing.  (As stated the
claim fails: the code verifies the password before looking up the user, so
with a non-matching password the call fails with `incorrectPassword`
instead.) -/
theorem C4_user_not_found (uid rawName password : String) (now : Nat)
    (sf : Option String) (st : Store) (gd : GroupDoc) (hsh : BcryptHash)
    (hname : normalize rawName ≠ "") (hpw : password ≠ "")
    (hg : alookup st.groups (normalize rawName) = some gd)
    (hh : gd.passwordHash = some hsh)
    (hcheck : checkpw password hsh = true)
    (hu : alookup st.users uid = none) :
    join_group uid rawName password now sf st = (JoinRes.userNotFound, st) := by
  have hcond : ¬(normalize rawName = "" ∨ password = "") := by
    rintro (h | h)
    · exact hname h
    · exact hpw h
  simp [join_group, if_neg hcond, hg, hh, hcheck, hu]

/-- Witness for C4 (amended): correct password, missing user record. -/
theorem C4_witness :
    join_group "u1" "g" "password123" 0 none stNoUser =
      (JoinRes.userNotFound, stNoUser) :=
  C4_user_not_found "u1" "g" "password123" 0 none stNoUser
    ⟨"g", some (hashpw "password123" "s1"), 0, ⟨"c", "carol", ""⟩⟩
    (hashpw "password123" "s1")
    (by decide) (by decide) (by decide) (by decide) (by decide) (by decide)

/-- C5.  Group-not-found precedence: if no group is stored under the
normalized name, `join_group` fails with `groupNotFound` — never with
`incorrectPassword` — for every non-empty password, and writes nothing. -/
theorem C5_group_not_found_precedence (uid rawName password : String)
    (now : Nat) (sf : Option String) (st : Store)
    (hname : normalize rawName ≠ "") (hpw : password ≠ "")
    (hg : alookup st.groups (normalize rawName) = none) :
    join_group uid rawName password now sf st = (JoinRes.groupNotFound, st) ∧
      (join_group uid rawName password now sf st).1 ≠ JoinRes.incorrectPassword := by
  have hcond : ¬(normalize rawName = "" ∨ password = "") := by
    rintro (h | h)
    · exact hname h
    · exact hpw h
  have heq : join_group uid rawName password now sf st = (JoinRes.groupNotFound, st) := by
    simp [join_group, if_neg hcond, hg]
  exact ⟨heq, by rw [heq]; simp⟩

/-- Witness for C5: `password123` is the correct password of group `g` in
`stGroup`, but no group `h` exists. -/
theorem C5_witness :
    join_group "u1" "h" "password123" 0 none stGroup =
      (JoinRes.groupNotFound, stGroup) ∧
    (join_group "u1" "h" "password123" 0 none stGroup).1 ≠
      JoinRes.incorrectPassword :=
  C5_group_not_found_precedence "u1" "h" "password123" 0 none stGroup
    (by decide) (by decide) (by decide)

/-- One group `g` whose stored record has no password hash. -/
def stCorrupt : Store :=
  { groups := [("g", ⟨"g", none, 0, ⟨"c", "carol", ""⟩⟩)]
    members := []
    userGroups := []
    users := [("u1", ⟨some "alice", some "a.png"⟩)] }

/-- C6.  Corrupted-record handling: when the stored group record has no
password hash, `join_group` fails with the corrupted-record error for every
non-empty password — so no password comparison can have influenced the
outcome — writes nothing, and the response is the fixed 500 server-fault
message carrying no hash value. -/
theorem C6_corrupted_record (uid rawName password : String) (now : Nat)
    (sf : Option String) (st : Store) (gd : GroupDoc)
    (hname : normalize rawName ≠ "") (hpw : password ≠ "")
    (hg : alookup st.groups (normalize rawName) = some gd)
    (hh : gd.passwordHash = none) :
    join_group uid rawName password now sf st = (JoinRes.corruptedGroup, st) ∧
      joinStatus (join_group uid rawName password now sf st).1 = 500 ∧
      joinResVals (join_group uid rawName password now sf st).1 =
        [Val.s "Corrupted group"] ∧
      ∀ b : BcryptHash, Val.h b ∉ joinResVals (join_group uid rawName password now sf st).1 := by
  have hcond : ¬(normalize rawName = "" ∨ password = "") := by
    rintro (h | h)
    · exact hname h
    · exact hpw h
  have heq : join_group uid rawName password now sf st = (JoinRes.corruptedGroup, st) := by
    simp [join_group, if_neg hcond, hg, hh]
  refine ⟨heq, ?_, ?_, ?_⟩ <;> rw [heq] <;> simp [joinStatus, joinResVals]

/-- Witness for C6 on a store whose group `g` lacks a password hash. -/
theorem C6_witness :
    join_group "u1" "g" "whatever99" 0 none stCorrupt =
      (JoinRes.corruptedGroup, stCorrupt) ∧
    joinStatus (join_group "u1" "g" "whatever99" 0 none stCorrupt).1 = 500 ∧
    Val.h (hashpw "whatever99" "s") ∉
      joinResVals (join_group "u1" "g" "whatever99" 0 none stCorrupt).1 := by
  have h := C6_corrupted_record "u1" "g" "whatever99" 0 none stCorrupt
    ⟨"g", none, 0, ⟨"c", "carol", ""⟩⟩ (by decide) (by decide) (by decide) (by decide)
  exact ⟨h.1, h.2.1, h.2.2.2 (hashpw "whatever99" "s")⟩

/-- C7.  Password-length boundary: with the other preconditions of
`create_group` satisfied (non-empty normalized name, no existing group, user
record present, no store fault), a password of length 7 fails with
`passwordTooShort`, a password of length 8 succeeds, and no password shorter
than 8 characters is ever accepted. -/
theorem C7_password_length_boundary (uid rawName password salt : String)
    (now : Nat) (st : Store) (u : UserDoc)
    (hname : normalize rawName ≠ "")
    (hg : alookup st.groups (normalize rawName) = none)
    (hu : alookup st.users uid = some u) :
    (password.length = 7 →
      create_group uid rawName password salt now none st =
        (CreateRes.passwordTooShort, st)) ∧
    (password.length = 8 →
      (create_group uid rawName password salt now none st).1 =
        CreateRes.success (normalize rawName)) ∧
    ∀ (pw' : String), pw'.length < 8 → ∀ (g : String) (sf : Option String),
      (create_group uid rawName pw' salt now sf st).1 ≠ CreateRes.success g := by
  refine ⟨?_, ?_, ?_⟩
  · intro h7
    have hpw : password ≠ "" := by
      intro he; subst he; simp [String.length] at h7
    have hcond : ¬(normalize rawName = "" ∨ password = "") := by
      rintro (h | h)
      · exact hname h
      · exact hpw h
    have hlt : password.length < 8 := by omega
    simp [create_group, if_neg hcond, if_pos hlt]
  · intro h8
    have hpw : password ≠ "" := by
      intro he; subst he; simp [String.length] at h8
    have hcond : ¬(normalize rawName = "" ∨ password = "") := by
      rintro (h | h)
      · exact hname h
      · exact hpw h
    have hge : ¬password.length < 8 := by omega
    simp [create_group, if_neg hcond, if_neg hge, hu,
      transaction_create_absent (hashpw password salt) uid
        (u.username.getD "") (u.photoUrl.getD "") now hg]
  · intro pw' hlt g sf
    by_cases hc : normalize rawName = "" ∨ pw' = ""
    · simp [create_group, if_pos hc]
    · simp [create_group, if_neg hc, if_pos hlt]

/-- Witness for C7: length-7 password rejected, length-8 accepted, and a
5-character password never accepted. -/
theorem C7_witness :
    create_group "u1" " G " "abcdefg" "s" 0 none stUser =
      (CreateRes.passwordTooShort, stUser) ∧
    (create_group "u1" " G " "abcdefgh" "s" 0 none stUser).1 =
      CreateRes.success "g" ∧
    (create_group "u1" " G " "abcde" "s" 0 none stUser).1 ≠
      CreateRes.success "g" := by
  have h7 := C7_password_length_boundary "u1" " G " "abcdefg" "s" 0 stUser
    ⟨some "alice", some "a.png"⟩ (by decide) (by decide) (by decide)
  have h8 := C7_password_length_boundary "u1" " G " "abcdefgh" "s" 0 stUser
    ⟨some "alice", some "a.png"⟩ (by decide) (by decide) (by decide)
  exact ⟨h7.1 (by decide), h8.2.1 (by decide), h7.2.2 "abcde" (by decide) "g" none⟩

/-- The only group identifier a successful `join_group` can return is the
normalized input name. -/
theorem join_group_success_groupId {uid rawName password : String} {now : Nat}
    {sf : Option String} {st : Store} {g : String}
    (h : (join_group uid rawName password now sf st).1 = JoinRes.success g) :
    g = normalize rawName := by
  simp only [join_group] at h
  repeat' split at h
  all_goals simp_all

/-- With the group absent, a store fault at commit surfaces as the fault's
own exception out of the create transaction. -/
theorem transaction_create_fault {name : String} {st : Store}
    (hashed : BcryptHash) (uid username photoUrl : String) (now : Nat)
    (msg : String) (hg : alookup st.groups name = none) :
    transaction_create name hashed uid username photoUrl now (some msg) st =
      .error msg := by
  simp [transaction_create, hg]

/-- With the group present under the normalized name, the password correct
and the user record present, `join_group` (without store fault) reports
success under the normalized name. -/
theorem join_group_success_res {uid rawName password : String} {now : Nat}
    {st : Store} {gd : GroupDoc} {hsh : BcryptHash} {u : UserDoc}
    (hname : normalize rawName ≠ "") (hpw : password ≠ "")
    (hg : alookup st.groups (normalize rawName) = some gd)
    (hh : gd.passwordHash = some hsh)
    (hcheck : checkpw password hsh = true)
    (hu : alookup st.users uid = some u) :
    (join_group uid rawName password now none st).1 =
      JoinRes.success (normalize rawName) := by
  have hcond : ¬(normalize rawName = "" ∨ password = "") := by
    rintro (h | h)
    · exact hname h
    · exact hpw h
  obtain ⟨st2, htj⟩ := transaction_join_none_ok (normalize rawName) uid
    (u.username.getD "") (u.photoUrl.getD "") now st
  simp [join_group, if_neg hcond, hg, hh, hcheck, hu, htj]

/-- C8.  Normalization round-trip: a group created under `rawName` is stored
under the trimmed, lowercased key and `create_group` returns exactly that
normalized name; any spelling that normalizes to the same key can then be
used to join, and `join_group` likewise returns the normalized name. -/
theorem C8_normalization_roundtrip (uid uid2 rawName rawName2 password salt : String)
    (now now2 : Nat) (st : Store) (u u2 : UserDoc)
    (hname : normalize rawName ≠ "") (hlen : 8 ≤ password.length)
    (hg : alookup st.groups (normalize rawName) = none)
    (hu : alookup st.users uid = some u)
    (hu2 : alookup st.users uid2 = some u2)
    (hsame : normalize rawName2 = normalize rawName) :
    (create_group uid rawName password salt now none st).1 =
      CreateRes.success (normalize rawName) ∧
    alookup (create_group uid rawName password salt now none st).2.groups
        (normalize rawName) =
      some ⟨normalize rawName, some (hashpw password salt), now,
        ⟨uid, u.username.getD "", u.photoUrl.getD ""⟩⟩ ∧
    (join_group uid2 rawName2 password now2 none
        (create_group uid rawName password salt now none st).2).1 =
      JoinRes.success (normalize rawName2) := by
  have hpw : password ≠ "" := by
    intro he; subst he; simp [String.length] at hlen
  have hcond : ¬(normalize rawName = "" ∨ password = "") := by
    rintro (h | h)
    · exact hname h
    · exact hpw h
  have htc := transaction_create_absent (hashpw password salt) uid
    (u.username.getD "") (u.photoUrl.getD "") now hg
  have heqC : create_group uid rawName password salt now none st =
      (CreateRes.success (normalize rawName),
        ⟨aset st.groups (normalize rawName)
            ⟨normalize rawName, some (hashpw password salt), now,
              ⟨uid, u.username.getD "", u.photoUrl.getD ""⟩⟩,
          aset st.members (normalize rawName, uid)
            ⟨"member", u.username.getD "", u.photoUrl.getD "", now⟩,
          aset st.userGroups (uid, normalize rawName)
            ⟨normalize rawName, u.username.getD "", u.photoUrl.getD "", "member", now⟩,
          st.users⟩) := by
    simp [create_group, if_neg hcond, if_neg (Nat.not_lt.mpr hlen), hu, htc]
  refine ⟨by rw [heqC], ?_, ?_⟩
  · rw [heqC]
    exact alookup_aset_self st.groups (normalize rawName) _
  · rw [heqC]
    have hcond2 : ¬(normalize rawName2 = "" ∨ password = "") := by
      rintro (h | h)
      · rw [hsame] at h; exact hname h
      · exact hpw h
    have hgC : alookup (aset st.groups (normalize rawName)
        ⟨normalize rawName, some (hashpw password salt), now,
          ⟨uid, u.username.getD "", u.photoUrl.getD ""⟩⟩) (normalize rawName2) =
        some ⟨normalize rawName, some (hashpw password salt), now,
          ⟨uid, u.username.getD "", u.photoUrl.getD ""⟩⟩ := by
      rw [hsame]; exact alookup_aset_self st.groups (normalize rawName) _
    exact join_group_success_res (by rw [hsame]; exact hname) hpw hgC rfl
      (checkpw_hashpw password salt) hu2

/-- Witness for C8: the spec's own example — create `"  Study Group  "`, then
join via `"STUDY group"`; both answer with key `"study group"`. -/
theorem C8_witness :
    (create_group "u1" "  Study Group  " "password123" "s1" 3 none stUser).1 =
      CreateRes.success "study group" ∧
    alookup (create_group "u1" "  Study Group  " "password123" "s1" 3 none stUser).2.groups
        "study group" =
      some ⟨"study group", some (hashpw "password123" "s1"), 3, ⟨"u1", "alice", "a.png"⟩⟩ ∧
    (join_group "u1" "STUDY group" "password123" 4 none
        (create_group "u1" "  Study Group  " "password123" "s1" 3 none stUser).2).1 =
      JoinRes.success "study group" :=
  C8_normalization_roundtrip "u1" "u1" "  Study Group  " "STUDY group"
    "password123" "s1" 3 4 stUser ⟨some "alice", some "a.png"⟩
    ⟨some "alice", some "a.png"⟩
    (by decide) (by decide) (by decide) (by decide) (by decide) (by decide)

/-- C9.  Password secrecy: a successful `create_group` stores the salted
one-way hash of the supplied password, and that hash value is never equal to
any plain string, in particular not to the plaintext password; no
`create_group` or `join_group` response ever carries a hash value; and the
plaintext password occurs in no response, unless it coincides with the
normalized group name or with one of the fixed response messages. -/
theorem C9_password_secrecy (uid rawName password salt : String) (now : Nat)
    (st : Store) (u : UserDoc)
    (hname : normalize rawName ≠ "") (hlen : 8 ≤ password.length)
    (hg : alookup st.groups (normalize rawName) = none)
    (hu : alookup st.users uid = some u) :
    alookup (create_group uid rawName password salt now none st).2.groups
        (normalize rawName) =
      some ⟨normalize rawName, some (hashpw password salt), now,
        ⟨uid, u.username.getD "", u.photoUrl.getD ""⟩⟩ ∧
    (∀ s : String, Val.h (hashpw password salt) ≠ Val.s s) ∧
    (∀ (r : CreateRes) (b : BcryptHash), Val.h b ∉ createResVals r) ∧
    (∀ (r : JoinRes) (b : BcryptHash), Val.h b ∉ joinResVals r) ∧
    (password ≠ normalize rawName →
      Val.s password ∉
        createResVals (create_group uid rawName password salt now none st).1) ∧
    (∀ (uid2 rawName2 pw2 : String) (now2 : Nat) (sf2 : Option String) (st2 : Store),
      password ≠ normalize rawName2 →
      password ∉ ["Missing fields", "Group not found", "Corrupted group",
        "Incorrect password", "User not found", "Server error"] →
      Val.s password ∉ joinResVals (join_group uid2 rawName2 pw2 now2 sf2 st2).1) := by
  have hpw : password ≠ "" := by
    intro he; subst he; simp [String.length] at hlen
  have hcond : ¬(normalize rawName = "" ∨ password = "") := by
    rintro (h | h)
    · exact hname h
    · exact hpw h
  have htc := transaction_create_absent (hashpw password salt) uid
    (u.username.getD "") (u.photoUrl.getD "") now hg
  have heqC : create_group uid rawName password salt now none st =
      (CreateRes.success (normalize rawName),
        ⟨aset st.groups (normalize rawName)
            ⟨normalize rawName, some (hashpw password salt), now,
              ⟨uid, u.username.getD "", u.photoUrl.getD ""⟩⟩,
          aset st.members (normalize rawName, uid)
            ⟨"member", u.username.getD "", u.photoUrl.getD "", now⟩,
          aset st.userGroups (uid, normalize rawName)
            ⟨normalize rawName, u.username.getD "", u.photoUrl.getD "", "member", now⟩,
          st.users⟩) := by
    simp [create_group, if_neg hcond, if_neg (Nat.not_lt.mpr hlen), hu, htc]
  refine ⟨?_, ?_, ?_, ?_, ?_, ?_⟩
  · rw [heqC]
    exact alookup_aset_self st.groups (normalize rawName) _
  · intro s hcontra
    cases hcontra
  · intro r b
    cases r <;> simp [createResVals]
  · intro r b
    cases r <;> simp [joinResVals]
  · intro hpne
    rw [heqC]
    simp [createResVals]
    exact fun h => hpne h
  · intro uid2 rawName2 pw2 now2 sf2 st2 hne hlit
    simp only [List.mem_cons, List.not_mem_nil, or_false] at hlit
    push_neg at hlit
    cases hr : (join_group uid2 rawName2 pw2 now2 sf2 st2).1 with
    | success g =>
        have hgid := join_group_success_groupId hr
        subst hgid
        simp [joinResVals]
        exact hne
    | missingFields => simp [joinResVals]; exact hlit.1
    | groupNotFound => simp [joinResVals]; exact hlit.2.1
    | corruptedGroup => simp [joinResVals]; exact hlit.2.2.1
    | incorrectPassword => simp [joinResVals]; exact hlit.2.2.2.1
    | userNotFound => simp [joinResVals]; exact hlit.2.2.2.2.1
    | serverError => simp [joinResVals]; exact hlit.2.2.2.2.2

/-- Witness for C9 on a concrete creation. -/
theorem C9_witness :
    alookup (create_group "u1" " G " "password123" "s9" 3 none stUser).2.groups "g" =
      some ⟨"g", some (hashpw "password123" "s9"), 3, ⟨"u1", "alice", "a.png"⟩⟩ ∧
    Val.h (hashpw "password123" "s9") ≠ Val.s "password123" ∧
    Val.h (hashpw "a" "b") ∉ createResVals (CreateRes.success "g") ∧
    Val.h (hashpw "a" "b") ∉ joinResVals (JoinRes.success "g") ∧
    Val.s "password123" ∉
      createResVals (create_group "u1" " G " "password123" "s9" 3 none stUser).1 ∧
    Val.s "password123" ∉ joinResVals (join_group "u2" "gg" "pw12345x" 0 none stUser).1 := by
  have h := C9_password_secrecy "u1" " G " "password123" "s9" 3 stUser
    ⟨some "alice", some "a.png"⟩ (by decide) (by decide) (by decide) (by decide)
  exact ⟨h.1, h.2.1 "password123", h.2.2.1 (CreateRes.success "g") (hashpw "a" "b"),
    h.2.2.2.1 (JoinRes.success "g") (hashpw "a" "b"),
    h.2.2.2.2.1 (by decide),
    h.2.2.2.2.2 "u2" "gg" "pw12345x" 0 none stUser (by decide) (by decide)⟩

/-- C10.  Implicit error classification: the except-clause of `create_group`
classifies an escaping exception by the substring `"taken"` of its text — any
such exception is reported as the 400 "Group name already taken" client
error, every other one as the generic 500 server error.  In particular a
store-layer fault at commit time whose message happens to contain `"taken"`
is misclassified as "Group name already taken" even though no group with
that name exists. -/
theorem C10_taken_substring_classification (uid rawName password salt msg : String)
    (now : Nat) (st : Store) (u : UserDoc)
    (hname : normalize rawName ≠ "") (hlen : 8 ≤ password.length)
    (hg : alookup st.groups (normalize rawName) = none)
    (hu : alookup st.users uid = some u) :
    (containsTaken msg = true →
      createClassifyError msg = CreateRes.groupTaken ∧
      create_group uid rawName password salt now (some msg) st =
        (CreateRes.groupTaken, st)) ∧
    (containsTaken msg = false →
      createClassifyError msg = CreateRes.serverError ∧
      create_group uid rawName password salt now (some msg) st =
        (CreateRes.serverError, st)) := by
  have hpw : password ≠ "" := by
    intro he; subst he; simp [String.length] at hlen
  have hcond : ¬(normalize rawName = "" ∨ password = "") := by
    rintro (h | h)
    · exact hname h
    · exact hpw h
  have htc := transaction_create_fault (hashpw password salt) uid
    (u.username.getD "") (u.photoUrl.getD "") now msg hg
  have heq : create_group uid rawName password salt now (some msg) st =
      (createClassifyError msg, st) := by
    simp [create_group, if_neg hcond, if_neg (Nat.not_lt.mpr hlen), hu, htc]
  constructor
  · intro hm
    have hcl : createClassifyError msg = CreateRes.groupTaken := by
      simp [createClassifyError, hm]
    exact ⟨hcl, by rw [heq, hcl]⟩
  · intro hm
    have hcl : createClassifyError msg = CreateRes.serverError := by
      simp [createClassifyError, hm]
    exact ⟨hcl, by rw [heq, hcl]⟩

/-- Witness for C10: a transient store fault reading "lock already taken by
another transaction" is reported as "Group name already taken" even though
group `g` does not exist; one reading "deadline exceeded" becomes the
generic server error. -/
theorem C10_witness :
    create_group "u1" " G " "password123" "s" 0
        (some "lock already taken by another transaction") stUser =
      (CreateRes.groupTaken, stUser) ∧
    create_group "u1" " G " "password123" "s" 0 (some "deadline exceeded") stUser =
      (CreateRes.serverError, stUser) := by
  have h1 := C10_taken_substring_classification "u1" " G " "password123" "s"
    "lock already taken by another transaction" 0 stUser
    ⟨some "alice", some "a.png"⟩ (by decide) (by decide) (by decide) (by decide)
  have h2 := C10_taken_substring_classification "u1" " G " "password123" "s"
    "deadline exceeded" 0 stUser
    ⟨some "alice", some "a.png"⟩ (by decide) (by decide) (by decide) (by decide)
  exact ⟨(h1.1 (by decide)).2, (h2.2 (by decide)).2⟩

end GroupApp
